import Mathlib

/-!
Verification of the mcp-sourcekit-lsp bridge core.

The definitions below are a shallow embedding of the repository's TypeScript
sources: `lsp-client.ts` (the `SourceKitLSPClient` class), `server.ts`
(`MCPSourceKitServer`), `tool-definitions.ts`, and the tool modules
`tools/hover.ts`, `tools/definition.ts`, `tools/references.ts`,
`tools/symbols.ts`, `tools/diagnostics.ts`.  Pure functions become Lean
functions; the mutable fields of the client class become an explicit state
record threaded through the operations; thrown exceptions become `Except`
errors; protocol traffic becomes explicit lists of emitted messages.
-/

namespace SourceKitMCP

/-- Association-list model of a TypeScript `Map<string, V>`: `Map.get`. -/
def mapLookup {α : Type} : List (String × α) → String → Option α
  | [], _ => none
  | p :: rest, k => if p.1 == k then some p.2 else mapLookup rest k

/-- `Map.set`: replace the binding if the key is present, append otherwise. -/
def mapSet {α : Type} : List (String × α) → String → α → List (String × α)
  | [], k, v => [(k, v)]
  | p :: rest, k, v => if p.1 == k then (k, v) :: rest else p :: mapSet rest k v

/-- `Map.delete`. -/
def mapRemove {α : Type} (m : List (String × α)) (k : String) : List (String × α) :=
  m.filter (fun p => p.1 != k)

/-- LSP `Position` (0-based), from vscode-languageserver-types as used by the code.
Coordinates are `Int` because the TypeScript code performs unchecked `- 1`
arithmetic on caller-supplied numbers. -/
structure Position where
  line : Int
  character : Int
deriving DecidableEq, Repr

/-- LSP `Range`. -/
structure Range where
  start : Position
  «end» : Position
deriving DecidableEq, Repr

/-- LSP `Diagnostic` as consumed by the client and the diagnostics tool:
`{range, severity?, message, source?}`. -/
structure Diagnostic where
  range : Range
  severity : Option Int
  message : String
  source : Option String
deriving DecidableEq, Repr

/-- LSP `Location`. -/
structure Location where
  uri : String
  range : Range
deriving DecidableEq, Repr

/-- LSP `MarkedString`: a plain string or a `{language, value}` code block. -/
inductive MarkedString where
  | plain (value : String)
  | codeBlock (language value : String)
deriving DecidableEq, Repr

/-- The `contents` field of an LSP `Hover` reply: one of three wire shapes
(plain string, `MarkupContent {kind, value}`, or `MarkedString[]`). -/
inductive HoverContents where
  | plainString (value : String)
  | markup (kind value : String)
  | fragments (items : List MarkedString)
deriving DecidableEq, Repr

/-- LSP `Hover` reply.  `contents` is optional because the tool code guards
`!result.contents` against a missing field in a malformed reply. -/
structure Hover where
  contents : Option HoverContents
deriving DecidableEq, Repr

/-- LSP `SymbolInformation` as consumed by the symbols tool. -/
structure SymbolInformation where
  name : String
  kind : Int
  containerName : Option String
  location : Location
deriving DecidableEq, Repr

/-- One entry of `SourceKitLSPClient.openFiles`: `{version, content}`. -/
structure OpenDoc where
  version : Nat
  content : String
deriving DecidableEq, Repr

/-- The mutable state of the `SourceKitLSPClient` class (lsp-client.ts):
`diagnosticsCache` and `openFiles`, plus the observable state of its two
owned resources (the vscode-jsonrpc `MessageConnection`, whose only
behaviourally relevant bit here is whether `dispose()` has been called, and
the spawned child process, whose relevant bit is whether it is running). -/
structure SourceKitLSPClient where
  diagnosticsCache : List (String × List Diagnostic) := []
  openFiles : List (String × OpenDoc) := []
  connectionDisposed : Bool := false
  processRunning : Bool := true
deriving DecidableEq, Repr

/-- The client state right after `connect` succeeds: both caches empty,
connection live, subprocess running. -/
def initialClient : SourceKitLSPClient :=
  { diagnosticsCache := [], openFiles := [], connectionDisposed := false, processRunning := true }

/-- Outbound protocol messages emitted by the client operations. -/
inductive LSPMessage where
  | didOpenNotif (uri : String) (version : Nat) (text : String)
  | didChangeNotif (uri : String) (version : Nat) (text : String)
  | didCloseNotif (uri : String)
  | shutdownRequest
  | exitNotif
deriving DecidableEq, Repr

/-- The failures observable at the client boundary. -/
inductive LSPFailure where
  | connectionClosed
  | fileNotFound (path : String)
  | remoteError (message : String)
deriving DecidableEq, Repr

/-- The `message` of the Error object each failure surfaces as in the code. -/
def LSPFailure.message : LSPFailure → String
  | .connectionClosed => "Connection is closed."
  | .fileNotFound p => "File not found: " ++ p
  | .remoteError m => m

/-- Modelled from the spec: sending on the vscode-jsonrpc `MessageConnection`.
The connection object (created by `createMessageConnection`) is library code
that is not part of this repository; per the spec's session-state rules
(`ConnectionClosedError` after `Terminated`), a send on a disposed connection
fails and nothing is written to the wire, otherwise the message goes out. -/
def connectionSend (c : SourceKitLSPClient) (m : LSPMessage) :
    Except LSPFailure (List LSPMessage) :=
  if c.connectionDisposed then .error .connectionClosed else .ok [m]

/-- `SourceKitLSPClient.updateFile`: sends a `textDocument/didChange`
notification carrying the version and the full new content. -/
def SourceKitLSPClient.updateFile (c : SourceKitLSPClient) (uri content : String)
    (version : Nat) : Except LSPFailure (List LSPMessage) :=
  connectionSend c (.didChangeNotif uri version content)

/-- `SourceKitLSPClient.openFile`: if the URI is already tracked with identical
content, do nothing; if tracked with different content, send a change
notification at version + 1 and update the entry; otherwise send an open
notification and create the entry at version 1. -/
def SourceKitLSPClient.openFile (c : SourceKitLSPClient) (uri content : String) :
    Except LSPFailure (SourceKitLSPClient × List LSPMessage) :=
  match mapLookup c.openFiles uri with
  | some existing =>
    if existing.content == content then
      .ok (c, [])
    else
      let newVersion := existing.version + 1
      match c.updateFile uri content newVersion with
      | .error e => .error e
      | .ok sent =>
        .ok ({ c with openFiles := mapSet c.openFiles uri ⟨newVersion, content⟩ }, sent)
  | none =>
    match connectionSend c (.didOpenNotif uri 1 content) with
    | .error e => .error e
    | .ok sent =>
      .ok ({ c with openFiles := mapSet c.openFiles uri ⟨1, content⟩ }, sent)

/-- `SourceKitLSPClient.closeFile`: sends `textDocument/didClose` and removes
the tracker entry. -/
def SourceKitLSPClient.closeFile (c : SourceKitLSPClient) (uri : String) :
    Except LSPFailure (SourceKitLSPClient × List LSPMessage) :=
  match connectionSend c (.didCloseNotif uri) with
  | .error e => .error e
  | .ok sent => .ok ({ c with openFiles := mapRemove c.openFiles uri }, sent)

/-- `SourceKitLSPClient.getFileVersion`. -/
def SourceKitLSPClient.getFileVersion (c : SourceKitLSPClient) (uri : String) : Option Nat :=
  (mapLookup c.openFiles uri).map OpenDoc.version

/-- The `textDocument/publishDiagnostics` handler registered in `connect`:
stores the supplied array under the given URI, replacing any prior entry. -/
def SourceKitLSPClient.onPublishDiagnostics (c : SourceKitLSPClient) (uri : String)
    (diagnostics : List Diagnostic) : SourceKitLSPClient :=
  { c with diagnosticsCache := mapSet c.diagnosticsCache uri diagnostics }

/-- `SourceKitLSPClient.getDiagnostics`: cached array, or `[]` if absent. -/
def SourceKitLSPClient.getDiagnostics (c : SourceKitLSPClient) (uri : String) :
    List Diagnostic :=
  (mapLookup c.diagnosticsCache uri).getD []

/-- Deliver a sequence of inbound `publishDiagnostics` notifications, in
receipt order, to the handler. -/
def applyPublishes (c : SourceKitLSPClient) :
    List (String × List Diagnostic) → SourceKitLSPClient
  | [] => c
  | (uri, diags) :: rest => applyPublishes (c.onPublishDiagnostics uri diags) rest

/-- Specification function for the diagnostics-cache theorem: the payload of
the most recent notification for `uri` in the event list, if any. -/
def lastPublished (uri : String) : List (String × List Diagnostic) → Option (List Diagnostic)
  | [] => none
  | (u, d) :: rest =>
    match lastPublished uri rest with
    | some r => some r
    | none => if u == uri then some d else none

/-- Requests the client can issue through the connection. -/
inductive LSPRequest where
  | hoverReq (uri : String) (line character : Int)
  | definitionReq (uri : String) (line character : Int)
  | referencesReq (uri : String) (line character : Int) (includeDeclaration : Bool)
  | workspaceSymbolReq (query : String)
deriving DecidableEq, Repr

/-- The `textDocument/definition` reply: a single `Location` or an array. -/
inductive DefinitionReply where
  | single (location : Location)
  | multiple (locations : List Location)
deriving DecidableEq, Repr

/-- The remote language server, supplying the reply to each request the client
sends (the reply for a request is whatever the subprocess answers; the bridge
treats it as opaque input). -/
structure RemoteOracle where
  hoverReply : String → Int → Int → Except LSPFailure (Option Hover)
  definitionReply : String → Int → Int → Except LSPFailure (Option DefinitionReply)
  referencesReply : String → Int → Int → Bool → Except LSPFailure (Option (List Location))
  symbolsReply : String → Except LSPFailure (Option (List SymbolInformation))

/-- An oracle whose every reply is a successful empty result. -/
def nullOracle : RemoteOracle :=
  { hoverReply := fun _ _ _ => .ok none
    definitionReply := fun _ _ _ => .ok none
    referencesReply := fun _ _ _ _ => .ok none
    symbolsReply := fun _ => .ok none }

/-- `SourceKitLSPClient.hover`: `connection.sendRequest` of `textDocument/hover`
with the given URI and 0-based position.  Returns the reply together with the
list of requests actually put on the wire (empty when the send fails because
the connection is disposed). -/
def SourceKitLSPClient.hover (c : SourceKitLSPClient) (remote : RemoteOracle)
    (uri : String) (line character : Int) :
    Except LSPFailure (Option Hover) × List LSPRequest :=
  if c.connectionDisposed then (.error .connectionClosed, [])
  else (remote.hoverReply uri line character, [.hoverReq uri line character])

/-- `SourceKitLSPClient.definition`. -/
def SourceKitLSPClient.definition (c : SourceKitLSPClient) (remote : RemoteOracle)
    (uri : String) (line character : Int) :
    Except LSPFailure (Option DefinitionReply) × List LSPRequest :=
  if c.connectionDisposed then (.error .connectionClosed, [])
  else (remote.definitionReply uri line character, [.definitionReq uri line character])

/-- `SourceKitLSPClient.references` (includeDeclaration defaulted by callers). -/
def SourceKitLSPClient.references (c : SourceKitLSPClient) (remote : RemoteOracle)
    (uri : String) (line character : Int) (includeDeclaration : Bool) :
    Except LSPFailure (Option (List Location)) × List LSPRequest :=
  if c.connectionDisposed then (.error .connectionClosed, [])
  else (remote.referencesReply uri line character includeDeclaration,
        [.referencesReq uri line character includeDeclaration])

/-- `SourceKitLSPClient.workspaceSymbols`. -/
def SourceKitLSPClient.workspaceSymbols (c : SourceKitLSPClient) (remote : RemoteOracle)
    (query : String) :
    Except LSPFailure (Option (List SymbolInformation)) × List LSPRequest :=
  if c.connectionDisposed then (.error .connectionClosed, [])
  else (remote.symbolsReply query, [.workspaceSymbolReq query])

/-- `SourceKitLSPClient.shutdown`: awaits the `shutdown` request (whose reply is
`reply`), sends the `exit` notification, disposes the connection and kills the
subprocess. -/
def SourceKitLSPClient.shutdown (c : SourceKitLSPClient)
    (reply : Except LSPFailure Unit) :
    Except LSPFailure (SourceKitLSPClient × List LSPMessage) :=
  if c.connectionDisposed then .error .connectionClosed
  else
    match reply with
    | .error e => .error e
    | .ok _ =>
      .ok ({ c with connectionDisposed := true, processRunning := false },
           [.shutdownRequest, .exitNotif])

/-- Actions an exit observer could take.  The vocabulary includes the actions
the spec requires of the supervisor (failing pending requests, marking the
session terminated, respawning) so that their absence is expressible; the
code's handler only ever logs. -/
inductive ExitAction where
  | logMessage (text : String)
  | failPending (reason : String)
  | markTerminated
  | respawnProcess
deriving DecidableEq, Repr

/-- The exit observer `connect` installs on the child process
(`this.process.on('exit', ...)`, lsp-client.ts): it writes one line to stderr
and does nothing else — the comment in the source reads
"Optionally restart or notify user". -/
def onProcessExit (c : SourceKitLSPClient) (code : Int) :
    SourceKitLSPClient × List ExitAction :=
  (c, [.logMessage ("SourceKit-LSP exited with code " ++ toString code)])

/-- One outstanding request held by the transport: its wire identifier and the
continuation (identified here by the caller it belongs to). -/
structure PendingEntry where
  id : Nat
  caller : Nat
deriving DecidableEq, Repr

/-- An inbound reply frame: the identifier it answers and its payload. -/
structure WireReply where
  id : Nat
  payload : String
deriving DecidableEq, Repr

/-- Modelled from the spec: the request-correlation step of the Transport.
The repository delegates correlation to vscode-jsonrpc's
`createMessageConnection` (library code, not part of this repository's
sources); per the spec, the transport "maintains a mapping of outstanding
request identifiers to continuations", a reply resolves the pending request
with the matching identifier, and the entry is "removed exactly once, either
on reply or on connection teardown".  A reply with no matching identifier
resolves nothing. -/
def deliverReply (pending : List PendingEntry) (r : WireReply) :
    List PendingEntry × List (Nat × String) :=
  match pending.find? (fun p => p.id == r.id) with
  | some p => (pending.filter (fun q => q.id != r.id), [(p.caller, r.payload)])
  | none => (pending, [])

/-- Drain a list of inbound replies through the correlation table, in arrival
order, collecting each (caller, payload) resolution. -/
def runReplies (pending : List PendingEntry) : List WireReply → List (Nat × String)
  | [] => []
  | r :: rs =>
    let step := deliverReply pending r
    step.2 ++ runReplies step.1 rs

/-- `URI.file(path).toString()` (vscode-uri) for plain absolute POSIX paths
without characters needing percent-encoding: the `file` scheme prefix. -/
def fileUri (path : String) : String := "file://" ++ path

/-- `URI.parse(uri).fsPath` (vscode-uri), the inverse of `fileUri` on plain
POSIX file URIs: strips the 7-character `file://` prefix. -/
def uriFsPath (uri : String) : String := uri.drop 7

/-- The value every tool returns: `{content: [{type: 'text', text}]}`.  Each
return site in the tool sources produces exactly one text item, so the
embedding keeps just the text. -/
structure ToolResult where
  text : String
deriving DecidableEq, Repr

/-- The observable outcome of one tool execution: the returned text, the
client state afterwards, the document-sync notifications it emitted and the
requests it issued. -/
structure ToolOutcome where
  result : ToolResult
  client : SourceKitLSPClient
  sent : List LSPMessage
  requests : List LSPRequest
deriving Repr

/-- The filesystem visible to `fs.readFile`: path → content. -/
def FileSystem : Type := List (String × String)

/-- Arguments of the swift-hover and swift-definition tools. -/
structure PositionArgs where
  file : String
  line : Int
  column : Int
deriving DecidableEq, Repr

/-- Arguments of the swift-references tool (`includeDeclaration` is optional
and defaulted to `true` by destructuring). -/
structure ReferencesArgs where
  file : String
  line : Int
  column : Int
  includeDeclaration : Option Bool
deriving DecidableEq, Repr

/-- `JSON.stringify`-free rendering of one `MarkedString` as in hover.ts:
a plain string stands for itself, an object contributes its `value`. -/
def renderMarkedString : MarkedString → String
  | .plain s => s
  | .codeBlock _ v => v

/-- The hover-contents formatting chain of hover.ts: string → itself,
MarkupContent → its `value`, array → the fragments joined with newlines. -/
def renderHoverContents : HoverContents → String
  | .plainString s => s
  | .markup _ v => v
  | .fragments items => String.intercalate "\n" (items.map renderMarkedString)

/-- JavaScript truthiness of `result.contents` in `!result || !result.contents`:
a missing field and the empty string are falsy, objects and arrays are truthy. -/
def contentsFalsy : Option HoverContents → Bool
  | none => true
  | some (.plainString s) => s == ""
  | some (.markup _ _) => false
  | some (.fragments _) => false

/-- `location.uri`, `range.start` rendering shared by the definition and
references tools: `fsPath:line+1:column+1`. -/
def formatLocation (l : Location) : String :=
  uriFsPath l.uri ++ ":" ++ toString (l.range.start.line + 1) ++ ":"
    ++ toString (l.range.start.character + 1)

/-- `createHoverTool(...).execute` (hover.ts): convert the external path and
1-based position, ensure the document is open, send the hover request, format
the reply; every failure is caught and rendered as
`Failed to get hover information: <message>`. -/
def hoverToolExecute (fs : FileSystem) (remote : RemoteOracle)
    (c : SourceKitLSPClient) (args : PositionArgs) : ToolOutcome :=
  let uri := fileUri args.file
  let lspLine := args.line - 1
  let lspColumn := args.column - 1
  match mapLookup fs args.file with
  | none =>
    { result := ⟨"Failed to get hover information: "
        ++ LSPFailure.message (.fileNotFound args.file)⟩,
      client := c, sent := [], requests := [] }
  | some content =>
    match c.openFile uri content with
    | .error e =>
      { result := ⟨"Failed to get hover information: " ++ e.message⟩,
        client := c, sent := [], requests := [] }
    | .ok (c1, sent1) =>
      let step := c1.hover remote uri lspLine lspColumn
      match step.1 with
      | .error e =>
        { result := ⟨"Failed to get hover information: " ++ e.message⟩,
          client := c1, sent := sent1, requests := step.2 }
      | .ok reply =>
        match reply with
        | none =>
          { result := ⟨"No type information available at this position"⟩,
            client := c1, sent := sent1, requests := step.2 }
        | some h =>
          if contentsFalsy h.contents then
            { result := ⟨"No type information available at this position"⟩,
              client := c1, sent := sent1, requests := step.2 }
          else
            let text := match h.contents with
              | none => ""
              | some hc => renderHoverContents hc
            { result := ⟨if text == "" then "No type information available" else text⟩,
              client := c1, sent := sent1, requests := step.2 }

/-- `createDefinitionTool(...).execute` (definition.ts). -/
def definitionToolExecute (fs : FileSystem) (remote : RemoteOracle)
    (c : SourceKitLSPClient) (args : PositionArgs) : ToolOutcome :=
  let uri := fileUri args.file
  let lspLine := args.line - 1
  let lspColumn := args.column - 1
  match mapLookup fs args.file with
  | none =>
    { result := ⟨"Failed to find definition: "
        ++ LSPFailure.message (.fileNotFound args.file)⟩,
      client := c, sent := [], requests := [] }
  | some content =>
    match c.openFile uri content with
    | .error e =>
      { result := ⟨"Failed to find definition: " ++ e.message⟩,
        client := c, sent := [], requests := [] }
    | .ok (c1, sent1) =>
      let step := c1.definition remote uri lspLine lspColumn
      match step.1 with
      | .error e =>
        { result := ⟨"Failed to find definition: " ++ e.message⟩,
          client := c1, sent := sent1, requests := step.2 }
      | .ok none =>
        { result := ⟨"No definition found at this position"⟩,
          client := c1, sent := sent1, requests := step.2 }
      | .ok (some reply) =>
        let locations := match reply with
          | .single l => [l]
          | .multiple ls => ls
        match locations with
        | [] =>
          { result := ⟨"No definition found at this position"⟩,
            client := c1, sent := sent1, requests := step.2 }
        | [l] =>
          { result := ⟨"Definition found at: " ++ formatLocation l⟩,
            client := c1, sent := sent1, requests := step.2 }
        | ls =>
          { result := ⟨"Multiple definitions found:\n"
              ++ String.intercalate "\n" (ls.map (fun l => "- " ++ formatLocation l))⟩,
            client := c1, sent := sent1, requests := step.2 }

/-- `createReferencesTool(...).execute` (references.ts). -/
def referencesToolExecute (fs : FileSystem) (remote : RemoteOracle)
    (c : SourceKitLSPClient) (args : ReferencesArgs) : ToolOutcome :=
  let uri := fileUri args.file
  let lspLine := args.line - 1
  let lspColumn := args.column - 1
  let includeDeclaration := args.includeDeclaration.getD true
  match mapLookup fs args.file with
  | none =>
    { result := ⟨"Failed to find references: "
        ++ LSPFailure.message (.fileNotFound args.file)⟩,
      client := c, sent := [], requests := [] }
  | some content =>
    match c.openFile uri content with
    | .error e =>
      { result := ⟨"Failed to find references: " ++ e.message⟩,
        client := c, sent := [], requests := [] }
    | .ok (c1, sent1) =>
      let step := c1.references remote uri lspLine lspColumn includeDeclaration
      match step.1 with
      | .error e =>
        { result := ⟨"Failed to find references: " ++ e.message⟩,
          client := c1, sent := sent1, requests := step.2 }
      | .ok reply =>
        let locs := reply.getD []
        if locs.isEmpty then
          { result := ⟨"No references found for this symbol"⟩,
            client := c1, sent := sent1, requests := step.2 }
        else
          { result := ⟨"Found " ++ toString locs.length ++ " reference"
              ++ (if locs.length == 1 then "" else "s") ++ ":\n"
              ++ String.intercalate "\n"
                  (locs.map (fun l => "- " ++ formatLocation l))⟩,
            client := c1, sent := sent1, requests := step.2 }

/-- The `symbolKindToString` table of symbols.ts. -/
def symbolKindToString (kind : Int) : String :=
  if kind == 1 then "File" else if kind == 2 then "Module"
  else if kind == 3 then "Namespace" else if kind == 4 then "Package"
  else if kind == 5 then "Class" else if kind == 6 then "Method"
  else if kind == 7 then "Property" else if kind == 8 then "Field"
  else if kind == 9 then "Constructor" else if kind == 10 then "Enum"
  else if kind == 11 then "Interface" else if kind == 12 then "Function"
  else if kind == 13 then "Variable" else if kind == 14 then "Constant"
  else if kind == 15 then "String" else if kind == 16 then "Number"
  else if kind == 17 then "Boolean" else if kind == 18 then "Array"
  else if kind == 19 then "Object" else if kind == 20 then "Key"
  else if kind == 21 then "Null" else if kind == 22 then "EnumMember"
  else if kind == 23 then "Struct" else if kind == 24 then "Event"
  else if kind == 25 then "Operator" else if kind == 26 then "TypeParameter"
  else "Unknown"

/-- One line of the symbols tool output. -/
def formatSymbol (s : SymbolInformation) : String :=
  let base := s.name ++ " (" ++ symbolKindToString s.kind ++ ")"
  let withContainer := match s.containerName with
    | some cn => if cn == "" then base else base ++ " in " ++ cn
    | none => base
  withContainer ++ " - " ++ uriFsPath s.location.uri ++ ":"
    ++ toString (s.location.range.start.line + 1)

/-- `createSymbolsTool(...).execute` (symbols.ts): no document sync, straight
to the workspace/symbol request. -/
def symbolsToolExecute (remote : RemoteOracle) (c : SourceKitLSPClient)
    (query : String) : ToolOutcome :=
  let step := c.workspaceSymbols remote query
  match step.1 with
  | .error e =>
    { result := ⟨"Failed to search symbols: " ++ e.message⟩,
      client := c, sent := [], requests := step.2 }
  | .ok reply =>
    let syms := reply.getD []
    if syms.isEmpty then
      { result := ⟨"No symbols found matching \"" ++ query ++ "\""⟩,
        client := c, sent := [], requests := step.2 }
    else
      { result := ⟨"Found " ++ toString syms.length ++ " symbol"
          ++ (if syms.length == 1 then "" else "s") ++ " matching \"" ++ query
          ++ "\":\n"
          ++ String.intercalate "\n" (syms.map (fun s => "- " ++ formatSymbol s))⟩,
        client := c, sent := [], requests := step.2 }

/-- `diagnostic.severity || DiagnosticSeverity.Error`: JavaScript `||` treats
an absent severity and the (out-of-spec) value 0 as falsy. -/
def effectiveSeverity (d : Diagnostic) : Int :=
  match d.severity with
  | none => 1
  | some s => if s == 0 then 1 else s

/-- `severityToString` of diagnostics.ts. -/
def severityToString (s : Int) : String :=
  if s == 1 then "Error" else if s == 2 then "Warning"
  else if s == 3 then "Info" else if s == 4 then "Hint" else "Unknown"

/-- One line of the diagnostics tool output:
`Severity at line:column: message [source]`, positions converted to 1-based. -/
def formatDiagnostic (d : Diagnostic) : String :=
  let src := match d.source with
    | some s => if s == "" then "" else " [" ++ s ++ "]"
    | none => ""
  severityToString (effectiveSeverity d) ++ " at "
    ++ toString (d.range.start.line + 1) ++ ":"
    ++ toString (d.range.start.character + 1) ++ ": " ++ d.message ++ src

/-- The severity-count summary string built in diagnostics.ts. -/
def diagnosticsSummary (diags : List Diagnostic) : String :=
  let errors := diags.filter (fun d => d.severity == some 1)
  let warnings := diags.filter (fun d => d.severity == some 2)
  let others := diags.filter (fun d => !(d.severity == some 1) && !(d.severity == some 2))
  let s0 := ""
  let s1 := if errors.length > 0 then
      s0 ++ toString errors.length ++ " error" ++ (if errors.length == 1 then "" else "s")
    else s0
  let s2 := if warnings.length > 0 then
      (if s1 == "" then s1 else s1 ++ ", ") ++ toString warnings.length ++ " warning"
        ++ (if warnings.length == 1 then "" else "s")
    else s1
  if others.length > 0 then
    (if s2 == "" then s2 else s2 ++ ", ") ++ toString others.length ++ " other"
      ++ (if others.length == 1 then "" else "s")
  else s2

/-- `createDiagnosticsTool(...).execute` (diagnostics.ts): ensure the document
is open, wait for the push cache to settle (timing is outside the embedding),
then read the cache; failures render as `Failed to get diagnostics: <message>`. -/
def diagnosticsToolExecute (fs : FileSystem) (c : SourceKitLSPClient)
    (file : String) : ToolOutcome :=
  let uri := fileUri file
  match mapLookup fs file with
  | none =>
    { result := ⟨"Failed to get diagnostics: "
        ++ LSPFailure.message (.fileNotFound file)⟩,
      client := c, sent := [], requests := [] }
  | some content =>
    match c.openFile uri content with
    | .error e =>
      { result := ⟨"Failed to get diagnostics: " ++ e.message⟩,
        client := c, sent := [], requests := [] }
    | .ok (c1, sent1) =>
      let diags := c1.getDiagnostics uri
      if diags.isEmpty then
        { result := ⟨"No diagnostics (errors or warnings) found for this file"⟩,
          client := c1, sent := sent1, requests := [] }
      else
        { result := ⟨"Found " ++ toString diags.length ++ " diagnostic"
            ++ (if diags.length == 1 then "" else "s") ++ " ("
            ++ diagnosticsSummary diags ++ "):\n"
            ++ String.intercalate "\n"
                (diags.map (fun d => "- " ++ formatDiagnostic d))⟩,
          client := c1, sent := sent1, requests := [] }

/-- JSON values appearing in tool-call argument objects. -/
inductive JsonVal where
  | str (s : String)
  | num (n : Int)
  | boolean (b : Bool)
  | null
deriving DecidableEq, Repr

/-- One property of a tool input schema (tool-definitions.ts):
`{type, minimum?, minLength?, default?}`.  `minimum`/`minLength` are absent in
every public schema; they are injected only by `validateToolArgs`. -/
structure PropSchema where
  type : String
  minimum : Option Int := none
  minLength : Option Nat := none
  boolDefault : Option Bool := none
deriving DecidableEq, Repr

/-- A tool `inputSchema`: an object schema.  `additionalProperties` is absent
(`none`) in every public schema, which ajv treats as allowing extras. -/
structure InputSchema where
  properties : List (String × PropSchema)
  required : List String
  additionalProperties : Option Bool := none
deriving DecidableEq, Repr

/-- One entry of `TOOL_DEFINITIONS`. -/
structure ToolDefinition where
  name : String
  description : String
  inputSchema : InputSchema
deriving DecidableEq, Repr

/-- The `TOOL_DEFINITIONS` array of tool-definitions.ts. -/
def TOOL_DEFINITIONS : List ToolDefinition :=
  [ { name := "swift-hover"
      description := "Get type information and documentation for a symbol at a specific position"
      inputSchema :=
        { properties :=
            [ ("file", { type := "string" }),
              ("line", { type := "number" }),
              ("column", { type := "number" }) ]
          required := ["file", "line", "column"] } },
    { name := "swift-definition"
      description := "Find the definition of a symbol at a specific position"
      inputSchema :=
        { properties :=
            [ ("file", { type := "string" }),
              ("line", { type := "number" }),
              ("column", { type := "number" }) ]
          required := ["file", "line", "column"] } },
    { name := "swift-references"
      description := "Find all references to a symbol at a specific position"
      inputSchema :=
        { properties :=
            [ ("file", { type := "string" }),
              ("line", { type := "number" }),
              ("column", { type := "number" }),
              ("includeDeclaration", { type := "boolean", boolDefault := some true }) ]
          required := ["file", "line", "column"] } },
    { name := "swift-symbols"
      description := "Search for symbols in the workspace"
      inputSchema :=
        { properties := [ ("query", { type := "string" }) ]
          required := ["query"] } },
    { name := "swift-diagnostics"
      description := "Get compiler diagnostics (errors and warnings) for a file"
      inputSchema :=
        { properties := [ ("file", { type := "string" }) ]
          required := ["file"] } } ]

/-- The per-property constraint injection of `validateToolArgs` (server.ts):
`props.line.minimum = 1`, `props.column.minimum = 1`, `props.query.minLength = 1`,
applied only to properties that exist. -/
def injectProp (k : String) (p : PropSchema) : PropSchema :=
  if k == "line" then { p with minimum := some 1 }
  else if k == "column" then { p with minimum := some 1 }
  else if k == "query" then { p with minLength := some 1 }
  else p

/-- `validateToolArgs`' schema preparation: deep-clone the public schema, set
`additionalProperties: false`, inject the line/column/query constraints. -/
def buildValidationSchema (s : InputSchema) : InputSchema :=
  { properties := s.properties.map (fun kp => (kp.1, injectProp kp.1 kp.2))
    required := s.required
    additionalProperties := some false }

/-- ajv validation of one value against one property schema, for the schema
subset the tool definitions use (`string`/`number`/`boolean` types with
optional `minimum`/`minLength`). -/
def checkProp (p : PropSchema) (v : JsonVal) : Bool :=
  if p.type == "string" then
    match v with
    | .str s =>
      match p.minLength with
      | some m => decide (m ≤ s.length)
      | none => true
    | _ => false
  else if p.type == "number" then
    match v with
    | .num n =>
      match p.minimum with
      | some m => decide (m ≤ n)
      | none => true
    | _ => false
  else if p.type == "boolean" then
    match v with
    | .boolean _ => true
    | _ => false
  else false

/-- ajv validation of an argument object against an object schema: every
present property must be declared (unless extras are allowed) and satisfy its
property schema, and every required property must be present. -/
def validateJson (schema : InputSchema) (args : List (String × JsonVal)) : Bool :=
  args.all (fun kv =>
    match mapLookup schema.properties kv.1 with
    | some p => checkProp p kv.2
    | none => schema.additionalProperties.getD true)
  && schema.required.all (fun k => (mapLookup args k).isSome)

/-- `MCPSourceKitServer.validateToolArgs` (server.ts): look the tool up,
build the validation schema, run ajv; `none` means valid.  ajv's rendered
English error list is abstracted to the code's own fallback text
`"Invalid arguments"` — no claim depends on the message wording. -/
def validateToolArgs (toolName : String) (args : List (String × JsonVal)) :
    Option String :=
  match TOOL_DEFINITIONS.find? (fun t => t.name == toolName) with
  | none => some ("Unknown tool: " ++ toolName)
  | some tool =>
    if validateJson (buildValidationSchema tool.inputSchema) args then none
    else some "Invalid arguments"

/-- Reading a string field out of the validated `args as any` object. -/
def getStrArg (args : List (String × JsonVal)) (k : String) : String :=
  match mapLookup args k with
  | some (.str s) => s
  | _ => ""

/-- Reading a number field out of the validated `args as any` object. -/
def getNumArg (args : List (String × JsonVal)) (k : String) : Int :=
  match mapLookup args k with
  | some (.num n) => n
  | _ => 0

/-- Reading the optional boolean `includeDeclaration` field. -/
def getBoolArg (args : List (String × JsonVal)) (k : String) : Option Bool :=
  match mapLookup args k with
  | some (.boolean b) => some b
  | _ => none

/-- The observable outcome of the server's tools/call handler. -/
structure ServerOutcome where
  result : ToolResult
  client : SourceKitLSPClient
  sent : List LSPMessage
  requests : List LSPRequest
deriving Repr

/-- The tools/call request handler of `MCPSourceKitServer.setupRequestHandlers`
(server.ts): missing arguments short-circuit, then validation, then dispatch
on the tool name.  An unknown name never reaches the switch because
`validateToolArgs` already rejects it. -/
def handleToolCall (fs : FileSystem) (remote : RemoteOracle)
    (c : SourceKitLSPClient) (name : String)
    (args : Option (List (String × JsonVal))) : ServerOutcome :=
  match args with
  | none => { result := ⟨"Error: No arguments provided"⟩, client := c, sent := [], requests := [] }
  | some argList =>
    match validateToolArgs name argList with
    | some err =>
      { result := ⟨"Validation error: " ++ err⟩, client := c, sent := [], requests := [] }
    | none =>
      if name == "swift-hover" then
        let o := hoverToolExecute fs remote c
          ⟨getStrArg argList "file", getNumArg argList "line", getNumArg argList "column"⟩
        ⟨o.result, o.client, o.sent, o.requests⟩
      else if name == "swift-definition" then
        let o := definitionToolExecute fs remote c
          ⟨getStrArg argList "file", getNumArg argList "line", getNumArg argList "column"⟩
        ⟨o.result, o.client, o.sent, o.requests⟩
      else if name == "swift-references" then
        let o := referencesToolExecute fs remote c
          ⟨getStrArg argList "file", getNumArg argList "line", getNumArg argList "column",
            getBoolArg argList "includeDeclaration"⟩
        ⟨o.result, o.client, o.sent, o.requests⟩
      else if name == "swift-symbols" then
        let o := symbolsToolExecute remote c (getStrArg argList "query")
        ⟨o.result, o.client, o.sent, o.requests⟩
      else if name == "swift-diagnostics" then
        let o := diagnosticsToolExecute fs c (getStrArg argList "file")
        ⟨o.result, o.client, o.sent, o.requests⟩
      else
        { result := ⟨"Error: Unknown tool: " ++ name⟩, client := c, sent := [], requests := [] }

/-- A client with one document already open, for concrete instantiations. -/
def docClientA : SourceKitLSPClient :=
  { diagnosticsCache := [], openFiles := [("file:///a.swift", ⟨1, "let x = 1"⟩)],
    connectionDisposed := false, processRunning := true }

/-- Two pipelined requests: A (id 1, caller 10) issued before B (id 2, caller 20). -/
def pendingAB : List PendingEntry := [⟨1, 10⟩, ⟨2, 20⟩]

/-- The replies arriving out of order: B's reply first, then A's. -/
def repliesBA : List WireReply := [⟨2, "result B"⟩, ⟨1, "result A"⟩]

/-- A sample diagnostic for concrete instantiations. -/
def sampleDiag : Diagnostic :=
  { range := { start := ⟨0, 0⟩, «end» := ⟨0, 5⟩ },
    severity := some 1, message := "cannot find x in scope", source := some "sourcekitd" }

/-- A client mid-session: one open document and one cached diagnostic set. -/
def sessionClient : SourceKitLSPClient :=
  { diagnosticsCache := [("file:///a.swift", [sampleDiag])],
    openFiles := [("file:///a.swift", ⟨1, "let x = 1"⟩)],
    connectionDisposed := false, processRunning := true }

/-- `sessionClient` after `shutdown` completes. -/
def sessionClientClosed : SourceKitLSPClient :=
  { sessionClient with connectionDisposed := true, processRunning := false }

/-- An empty filesystem. -/
def emptyFS : FileSystem := []

/-- A filesystem with one Swift file. -/
def fsA : FileSystem := [("/proj/a.swift", "let x = 1")]

/-- A fresh client whose connection has been disposed. -/
def disposedClient : SourceKitLSPClient :=
  { diagnosticsCache := [], openFiles := [], connectionDisposed := true, processRunning := true }

/-- An oracle whose every reply is a remote error. -/
def failingOracle : RemoteOracle :=
  { hoverReply := fun _ _ _ => .error (.remoteError "Request failed")
    definitionReply := fun _ _ _ => .error (.remoteError "Request failed")
    referencesReply := fun _ _ _ _ => .error (.remoteError "Request failed")
    symbolsReply := fun _ => .error (.remoteError "Request failed") }

/-- Two concrete reply locations (0-based coordinates as on the wire). -/
def loc1 : Location := { uri := "file:///proj/a.swift", range := { start := ⟨0, 4⟩, «end» := ⟨0, 5⟩ } }

/-- Second concrete reply location. -/
def loc2 : Location := { uri := "file:///proj/b.swift", range := { start := ⟨9, 2⟩, «end» := ⟨9, 3⟩ } }

/-- An oracle answering the references request with two locations. -/
def refsOracle : RemoteOracle :=
  { nullOracle with referencesReply := fun _ _ _ _ => .ok (some [loc1, loc2]) }

/-! ### Theorems -/

theorem mapLookup_mapSet_self {α : Type} (m : List (String × α)) (k : String) (v : α) :
    mapLookup (mapSet m k v) k = some v := by
  induction m with
  | nil => simp [mapSet, mapLookup]
  | cons p rest ih =>
    by_cases h : p.1 == k
    · simp [mapSet, h, mapLookup]
    · simp [mapSet, h, mapLookup, ih]

theorem mapLookup_mapSet_ne {α : Type} (m : List (String × α)) (k k' : String) (v : α)
    (h : (k' == k) = false) :
    mapLookup (mapSet m k v) k' = mapLookup m k' := by
  have hne : (k == k') = false := by
    cases hq : k == k'
    · rfl
    · have : k = k' := by simpa using hq
      subst this
      simp at h
  induction m with
  | nil => simp [mapSet, mapLookup, hne]
  | cons p rest ih =>
    by_cases hp : p.1 == k
    · have hk : p.1 = k := by simpa using hp
      simp [mapSet, hp, mapLookup, hne, hk]
    · simp [mapSet, hp, mapLookup, ih]

theorem getDiagnostics_applyPublishes (c : SourceKitLSPClient)
    (events : List (String × List Diagnostic)) (uri : String) :
    (applyPublishes c events).getDiagnostics uri =
      match lastPublished uri events with
      | some d => d
      | none => c.getDiagnostics uri := by
  induction events generalizing c with
  | nil => simp [applyPublishes, lastPublished]
  | cons e rest ih =>
    obtain ⟨u, d⟩ := e
    rw [applyPublishes, ih, lastPublished]
    by_cases hu : u == uri
    · have hud : u = uri := by simpa using hu
      cases hrest : lastPublished uri rest with
      | some r => simp
      | none =>
        simp only [hu, if_true]
        simp [SourceKitLSPClient.getDiagnostics, SourceKitLSPClient.onPublishDiagnostics,
          hud, mapLookup_mapSet_self]
    · cases hrest : lastPublished uri rest with
      | some r => simp
      | none =>
        have hud : u ≠ uri := by simpa using hu
        have hne : (uri == u) = false := beq_eq_false_iff_ne.mpr (Ne.symm hud)
        simp only [hu, Bool.false_eq_true, if_false]
        simp [SourceKitLSPClient.getDiagnostics, SourceKitLSPClient.onPublishDiagnostics,
          mapLookup_mapSet_ne _ _ _ _ hne]

/-- Claim C2: for every URI and content string, calling `openFile` twice with
the same URI and identical content emits exactly one `didOpen` notification and
zero `didChange` notifications, and the second call is a no-op on the tracker
state (repeated "ensure open" is idempotent). -/
theorem openFile_idempotent (c : SourceKitLSPClient) (uri content : String)
    (hnew : mapLookup c.openFiles uri = none)
    (hconn : c.connectionDisposed = false) :
    ∃ c1 : SourceKitLSPClient,
      c.openFile uri content = .ok (c1, [LSPMessage.didOpenNotif uri 1 content]) ∧
      c1.openFile uri content = .ok (c1, []) := by
  refine ⟨{ c with openFiles := mapSet c.openFiles uri ⟨1, content⟩ }, ?_, ?_⟩
  · simp [SourceKitLSPClient.openFile, hnew, connectionSend, hconn]
  · simp [SourceKitLSPClient.openFile, mapLookup_mapSet_self]

/-- Witness for C2 at a concrete input. -/
theorem openFile_idempotent_witness :
    ∃ c1 : SourceKitLSPClient,
      initialClient.openFile "file:///a.swift" "let x = 1" =
        .ok (c1, [LSPMessage.didOpenNotif "file:///a.swift" 1 "let x = 1"]) ∧
      c1.openFile "file:///a.swift" "let x = 1" = .ok (c1, []) :=
  openFile_idempotent initialClient "file:///a.swift" "let x = 1" rfl rfl

/-- Claim C3: the first open of a URI stores version 1 and emits the open
notification with version 1; re-opening an open URI with different content
increments the stored version by exactly 1, updates the stored content, and
emits exactly one change notification carrying the new version and the full
new content. -/
theorem openFile_change_increments_version :
    (∀ (c : SourceKitLSPClient) (uri content : String),
      c.connectionDisposed = false →
      mapLookup c.openFiles uri = none →
      c.openFile uri content =
        .ok ({ c with openFiles := mapSet c.openFiles uri ⟨1, content⟩ },
             [LSPMessage.didOpenNotif uri 1 content])) ∧
    (∀ (c : SourceKitLSPClient) (uri oldContent newContent : String) (v : Nat),
      c.connectionDisposed = false →
      mapLookup c.openFiles uri = some ⟨v, oldContent⟩ →
      newContent ≠ oldContent →
      c.openFile uri newContent =
        .ok ({ c with openFiles := mapSet c.openFiles uri ⟨v + 1, newContent⟩ },
             [LSPMessage.didChangeNotif uri (v + 1) newContent]) ∧
      mapLookup (mapSet c.openFiles uri ⟨v + 1, newContent⟩) uri =
        some ⟨v + 1, newContent⟩) := by
  constructor
  · intro c uri content hconn hnew
    simp [SourceKitLSPClient.openFile, hnew, connectionSend, hconn]
  · intro c uri oldContent newContent v hconn hopen hne
    have hbe : (oldContent == newContent) = false :=
      beq_eq_false_iff_ne.mpr (Ne.symm hne)
    refine ⟨?_, mapLookup_mapSet_self _ _ _⟩
    simp [SourceKitLSPClient.openFile, hopen, hbe,
      SourceKitLSPClient.updateFile, connectionSend, hconn]

/-- Witness for C3 at a concrete input: re-opening with new content moves the
version from 1 to 2 and emits the change notification with version 2. -/
theorem openFile_change_increments_version_witness :
    docClientA.openFile "file:///a.swift" "let x = 2" =
      .ok ({ docClientA with
              openFiles := mapSet docClientA.openFiles "file:///a.swift" ⟨2, "let x = 2"⟩ },
           [LSPMessage.didChangeNotif "file:///a.swift" 2 "let x = 2"]) ∧
    mapLookup (mapSet docClientA.openFiles "file:///a.swift" ⟨2, "let x = 2"⟩)
        "file:///a.swift" = some ⟨2, "let x = 2"⟩ :=
  openFile_change_increments_version.2 docClientA "file:///a.swift"
    "let x = 1" "let x = 2" 1 rfl rfl (by decide)

/-- Claim C4: after any sequence of push-diagnostics notifications delivered to
a freshly connected client, `getDiagnostics uri` returns exactly the payload of
the most recent notification for that URI (full replacement, no merging), and
the empty list for a URI no notification ever named. -/
theorem getDiagnostics_last_write_wins :
    ∀ (events : List (String × List Diagnostic)) (uri : String),
      (applyPublishes initialClient events).getDiagnostics uri =
        match lastPublished uri events with
        | some d => d
        | none => [] := by
  intro events uri
  rw [getDiagnostics_applyPublishes]
  cases lastPublished uri events <;>
    simp [initialClient, SourceKitLSPClient.getDiagnostics, mapLookup]

theorem find?_eq_of_nodup_ids (l : List PendingEntry) (rid caller : Nat)
    (hids : (l.map PendingEntry.id).Nodup)
    (hmem : PendingEntry.mk rid caller ∈ l) :
    l.find? (fun p => p.id == rid) = some ⟨rid, caller⟩ := by
  induction l with
  | nil => cases hmem
  | cons q rest ih =>
    simp only [List.map_cons, List.nodup_cons] at hids
    rcases List.mem_cons.mp hmem with heq | hmem'
    · rw [← heq]
      simp [List.find?]
    · cases hq : (q.id == rid) with
      | true =>
        exfalso
        have hqid : q.id = rid := by simpa using hq
        have : rid ∈ rest.map PendingEntry.id := by
          exact List.mem_map_of_mem PendingEntry.id hmem'
        exact hids.1 (hqid ▸ this)
      | false =>
        rw [List.find?]
        rw [hq]
        exact ih hids.2 hmem'

theorem pending_caller_unique (l : List PendingEntry) (rid caller : Nat)
    (hcallers : (l.map PendingEntry.caller).Nodup)
    (hmem : PendingEntry.mk rid caller ∈ l) :
    ∀ p ∈ l, p.caller = caller → p = ⟨rid, caller⟩ := by
  induction l with
  | nil => cases hmem
  | cons q rest ih =>
    simp only [List.map_cons, List.nodup_cons] at hcallers
    intro p hp hpc
    rcases List.mem_cons.mp hmem with heq | hmem'
    · rcases List.mem_cons.mp hp with hpeq | hp'
      · rw [hpeq, ← heq]
      · exfalso
        have : p.caller ∈ rest.map PendingEntry.caller :=
          List.mem_map_of_mem PendingEntry.caller hp'
        rw [hpc] at this
        have hqc : q.caller = caller := by rw [← heq]
        exact hcallers.1 (hqc ▸ this)
    · rcases List.mem_cons.mp hp with hpeq | hp'
      · exfalso
        have : caller ∈ rest.map PendingEntry.caller := by
          have := List.mem_map_of_mem PendingEntry.caller hmem'
          simpa using this
        rw [hpeq] at hpc
        exact hcallers.1 (hpc ▸ this)
      · exact ih hcallers.2 hmem' p hp' hpc

theorem runReplies_caller_mem (rs : List WireReply) :
    ∀ (pending : List PendingEntry) (x : Nat × String),
      x ∈ runReplies pending rs → x.1 ∈ pending.map PendingEntry.caller := by
  induction rs with
  | nil => intro pending x hx; cases hx
  | cons r rest ih =>
    intro pending x hx
    rw [runReplies] at hx
    cases hfind : pending.find? (fun p => p.id == r.id) with
    | some p =>
      have hdel : deliverReply pending r =
          (pending.filter (fun q => q.id != r.id), [(p.caller, r.payload)]) := by
        simp [deliverReply, hfind]
      rw [hdel] at hx
      rcases List.mem_append.mp hx with hhead | htail
      · have hxp : x = (p.caller, r.payload) := by simpa using hhead
        rw [hxp]
        exact List.mem_map_of_mem PendingEntry.caller (List.mem_of_find?_eq_some hfind)
      · have := ih _ x htail
        rcases List.mem_map.mp this with ⟨q, hq, hqc⟩
        exact List.mem_map.mpr ⟨q, List.mem_of_mem_filter hq, hqc⟩
    | none =>
      have hdel : deliverReply pending r = (pending, []) := by
        simp [deliverReply, hfind]
      rw [hdel] at hx
      simp only [List.nil_append] at hx
      exact ih _ x hx

/-- Claim C1: with pairwise-distinct request identifiers (and one continuation
per request), each caller resolves with exactly the payload of the reply whose
identifier matches its own request.  The reply list is universally quantified,
so the conclusion holds for every arrival order, in particular when a later
request's reply arrives first. -/
theorem reply_correlation (pending : List PendingEntry) (replies : List WireReply)
    (rid caller : Nat) (payload : String)
    (hids : (pending.map PendingEntry.id).Nodup)
    (hcallers : (pending.map PendingEntry.caller).Nodup)
    (hp : PendingEntry.mk rid caller ∈ pending)
    (hr : WireReply.mk rid payload ∈ replies)
    (hrids : (replies.map WireReply.id).Nodup) :
    (caller, payload) ∈ runReplies pending replies ∧
      ∀ q, (caller, q) ∈ runReplies pending replies → q = payload := by
  induction replies generalizing pending with
  | nil => cases hr
  | cons r rs ih =>
    simp only [List.map_cons, List.nodup_cons] at hrids
    obtain ⟨hrid_not, hrids'⟩ := hrids
    by_cases hid : r.id = rid
    · have hfind : pending.find? (fun p => p.id == r.id) = some ⟨rid, caller⟩ := by
        rw [hid]
        exact find?_eq_of_nodup_ids pending rid caller hids hp
      have hpayload : r.payload = payload := by
        rcases List.mem_cons.mp hr with heq | hmem
        · rw [← heq]
        · exfalso
          have : rid ∈ rs.map WireReply.id := by
            have := List.mem_map_of_mem WireReply.id hmem
            simpa using this
          exact hrid_not (hid ▸ this)
      have hdel : deliverReply pending r =
          (pending.filter (fun q => q.id != r.id), [(caller, r.payload)]) := by
        simp [deliverReply, hfind]
      constructor
      · rw [runReplies, hdel]
        exact List.mem_append.mpr (Or.inl (by simp [hpayload]))
      · intro q hq
        rw [runReplies, hdel] at hq
        rcases List.mem_append.mp hq with hhead | htail
        · have : (caller, q) = (caller, r.payload) := by simpa using hhead
          rw [← hpayload]
          exact congrArg Prod.snd this
        · exfalso
          have hcmem := runReplies_caller_mem rs _ (caller, q) htail
          rcases List.mem_map.mp hcmem with ⟨p, hpfil, hpc⟩
          have hpmem : p ∈ pending := List.mem_of_mem_filter hpfil
          have hpe := pending_caller_unique pending rid caller hcallers hp p hpmem hpc
          have hpid : p.id ≠ r.id := by
            have := List.of_mem_filter hpfil
            simpa using this
          rw [hpe] at hpid
          exact hpid hid.symm
    · have hr' : WireReply.mk rid payload ∈ rs := by
        rcases List.mem_cons.mp hr with heq | hmem
        · exfalso
          apply hid
          rw [← heq]
        · exact hmem
      cases hfind : pending.find? (fun p => p.id == r.id) with
      | none =>
        have hdel : deliverReply pending r = (pending, []) := by
          simp [deliverReply, hfind]
        have ihres := ih pending hids hcallers hp hr' hrids'
        constructor
        · rw [runReplies, hdel]
          simpa using ihres.1
        · intro q hq
          rw [runReplies, hdel] at hq
          simp only [List.nil_append] at hq
          exact ihres.2 q hq
      | some p =>
        have hpmem : p ∈ pending := List.mem_of_find?_eq_some hfind
        have hpid : p.id = r.id := by
          have := List.find?_some hfind
          simpa using this
        have hpcaller : p.caller ≠ caller := by
          intro hc
          have := pending_caller_unique pending rid caller hcallers hp p hpmem hc
          rw [this] at hpid
          exact hid hpid.symm
        have hdel : deliverReply pending r =
            (pending.filter (fun q => q.id != r.id), [(p.caller, r.payload)]) := by
          simp [deliverReply, hfind]
        have hids' : ((pending.filter (fun q => q.id != r.id)).map PendingEntry.id).Nodup :=
          ((List.filter_sublist _).map PendingEntry.id).nodup hids
        have hcallers' :
            ((pending.filter (fun q => q.id != r.id)).map PendingEntry.caller).Nodup :=
          ((List.filter_sublist _).map PendingEntry.caller).nodup hcallers
        have hp' : PendingEntry.mk rid caller ∈ pending.filter (fun q => q.id != r.id) := by
          refine List.mem_filter.mpr ⟨hp, ?_⟩
          simpa using fun h => hid h.symm
        have ihres := ih _ hids' hcallers' hp' hr' hrids'
        constructor
        · rw [runReplies, hdel]
          exact List.mem_append.mpr (Or.inr ihres.1)
        · intro q hq
          rw [runReplies, hdel] at hq
          rcases List.mem_append.mp hq with hhead | htail
          · exfalso
            have : caller = p.caller ∧ q = r.payload := by
              have h1 : (caller, q) = (p.caller, r.payload) := by simpa using hhead
              exact ⟨congrArg Prod.fst h1, congrArg Prod.snd h1⟩
            exact hpcaller this.1.symm
          · exact ihres.2 q htail

/-- Witness for C1: request A (id 1) is issued before request B (id 2); B's
reply arrives first, yet caller 10 resolves with A's payload and caller 20
with B's. -/
theorem reply_correlation_witness :
    (10, "result A") ∈ runReplies pendingAB repliesBA ∧
    (20, "result B") ∈ runReplies pendingAB repliesBA :=
  ⟨(reply_correlation pendingAB repliesBA 1 10 "result A"
      (by decide) (by decide) (by decide) (by decide) (by decide)).1,
   (reply_correlation pendingAB repliesBA 2 20 "result B"
      (by decide) (by decide) (by decide) (by decide) (by decide)).1⟩

/-- Counterexample to claim C5 as stated: on an unexpected subprocess exit
(code 1) the registered exit observer only logs — the action list holds no
pending-request rejection and no state transition, the connection is not
marked disposed, and a subsequent request still goes out on the wire instead
of failing fast with a connection-closed error. -/
theorem unexpected_exit_counterexample :
    onProcessExit initialClient 1 =
      (initialClient, [ExitAction.logMessage "SourceKit-LSP exited with code 1"]) ∧
    (onProcessExit initialClient 1).1.connectionDisposed = false ∧
    (onProcessExit initialClient 1).1.hover nullOracle "file:///a.swift" 0 0 =
      (Except.ok none, [LSPRequest.hoverReq "file:///a.swift" 0 0]) :=
  ⟨rfl, rfl, rfl⟩

/-- Claim C5 (amended): on unexpected subprocess exit the client's exit
observer only logs the exit code; the client state is untouched (in particular
nothing is marked terminated, no pending work is failed, no subprocess is
spawned), and subsequent operations behave exactly as before the exit. -/
theorem unexpected_exit_amended (c : SourceKitLSPClient) (code : Int) :
    (onProcessExit c code).1 = c ∧
    (onProcessExit c code).2 =
      [ExitAction.logMessage ("SourceKit-LSP exited with code " ++ toString code)] ∧
    (∀ remote uri line character,
      (onProcessExit c code).1.hover remote uri line character =
        c.hover remote uri line character) ∧
    (∀ uri content,
      (onProcessExit c code).1.openFile uri content = c.openFile uri content) :=
  ⟨rfl, rfl, fun _ _ _ _ => rfl, fun _ _ => rfl⟩

/-- Counterexample to claim C6 as stated: after `shutdown` completes, re-opening
an already-open document with identical content succeeds (the tracker entry
survives shutdown and the identical-content path never touches the connection),
and the diagnostics-cache read still returns the stale cached set — neither
operation fails with a connection-closed error. -/
theorem shutdown_terminal_counterexample :
    sessionClient.shutdown (.ok ()) =
      .ok (sessionClientClosed, [LSPMessage.shutdownRequest, LSPMessage.exitNotif]) ∧
    sessionClientClosed.openFile "file:///a.swift" "let x = 1" =
      .ok (sessionClientClosed, []) ∧
    sessionClientClosed.getDiagnostics "file:///a.swift" = [sampleDiag] :=
  ⟨rfl, rfl, rfl⟩

/-- Claim C6 (amended): after `shutdown` completes, the subprocess is no longer
running, the shutdown request and exit notification were sent, and every
further operation that must send on the connection fails with the
connection-closed error; only operations served purely from local client state
(re-opening with identical content) still succeed. -/
theorem shutdown_terminal_amended (c c1 : SourceKitLSPClient)
    (msgs : List LSPMessage) (reply : Except LSPFailure Unit)
    (h : c.shutdown reply = .ok (c1, msgs)) :
    c1.processRunning = false ∧
    c1.connectionDisposed = true ∧
    msgs = [LSPMessage.shutdownRequest, LSPMessage.exitNotif] ∧
    (∀ remote uri line character,
      c1.hover remote uri line character = (.error .connectionClosed, [])) ∧
    (∀ remote uri line character,
      c1.definition remote uri line character = (.error .connectionClosed, [])) ∧
    (∀ remote uri line character b,
      c1.references remote uri line character b = (.error .connectionClosed, [])) ∧
    (∀ remote query,
      c1.workspaceSymbols remote query = (.error .connectionClosed, [])) ∧
    (∀ uri content version,
      c1.updateFile uri content version = .error .connectionClosed) ∧
    (∀ uri, c1.closeFile uri = .error .connectionClosed) ∧
    (∀ uri content doc, mapLookup c1.openFiles uri = some doc → doc.content = content →
      c1.openFile uri content = .ok (c1, [])) := by
  unfold SourceKitLSPClient.shutdown at h
  cases hd : c.connectionDisposed
  · rw [hd] at h
    cases reply with
    | error e => simp at h
    | ok u =>
      simp only [Bool.false_eq_true, if_false, Except.ok.injEq, Prod.mk.injEq] at h
      obtain ⟨hc1, hmsgs⟩ := h
      subst hc1
      subst hmsgs
      refine ⟨rfl, rfl, rfl, fun remote uri line character => ?_,
        fun remote uri line character => ?_, fun remote uri line character b => ?_,
        fun remote query => ?_, fun uri content version => ?_, fun uri => ?_,
        fun uri content doc hdoc hcontent => ?_⟩
      · simp [SourceKitLSPClient.hover]
      · simp [SourceKitLSPClient.definition]
      · simp [SourceKitLSPClient.references]
      · simp [SourceKitLSPClient.workspaceSymbols]
      · simp [SourceKitLSPClient.updateFile, connectionSend]
      · simp [SourceKitLSPClient.closeFile, connectionSend]
      · have hbe : (doc.content == content) = true := by simp [hcontent]
        simp [SourceKitLSPClient.openFile, hdoc, hbe]
  · rw [hd] at h
    simp at h

/-- Witness for the amended C6 at a concrete session. -/
theorem shutdown_terminal_amended_witness :
    sessionClientClosed.processRunning = false ∧
    sessionClientClosed.connectionDisposed = true ∧
    sessionClientClosed.hover nullOracle "file:///a.swift" 0 0 =
      (.error .connectionClosed, []) ∧
    sessionClientClosed.openFile "file:///a.swift" "let x = 1" =
      .ok (sessionClientClosed, []) := by
  have h := shutdown_terminal_amended sessionClient sessionClientClosed
    [LSPMessage.shutdownRequest, LSPMessage.exitNotif] (.ok ()) rfl
  exact ⟨h.1, h.2.1, h.2.2.2.1 nullOracle "file:///a.swift" 0 0,
    h.2.2.2.2.2.2.2.2.2 "file:///a.swift" "let x = 1" ⟨1, "let x = 1"⟩ rfl rfl⟩

theorem openFile_ok_of_not_disposed (c : SourceKitLSPClient) (uri content : String)
    (h : c.connectionDisposed = false) :
    ∃ (c1 : SourceKitLSPClient) (sent : List LSPMessage),
      c.openFile uri content = .ok (c1, sent) ∧ c1.connectionDisposed = false := by
  cases hl : mapLookup c.openFiles uri with
  | none =>
    refine ⟨{ c with openFiles := mapSet c.openFiles uri ⟨1, content⟩ },
      [LSPMessage.didOpenNotif uri 1 content], ?_, ?_⟩
    · simp [SourceKitLSPClient.openFile, hl, connectionSend, h]
    · simpa using h
  | some existing =>
    by_cases hc : existing.content == content
    · exact ⟨c, [], by simp [SourceKitLSPClient.openFile, hl, hc], h⟩
    · refine ⟨{ c with openFiles := mapSet c.openFiles uri ⟨existing.version + 1, content⟩ },
        [LSPMessage.didChangeNotif uri (existing.version + 1) content], ?_, ?_⟩
      · simp only [SourceKitLSPClient.openFile, hl, hc, Bool.false_eq_true, if_false,
          SourceKitLSPClient.updateFile, connectionSend, h]
      · simpa using h

/-- Claim C7: every failure path of a tool operation is caught and rendered as
a textual response carrying a human-readable cause — a missing file, a remote
error reply, and a disposed (terminated) connection each produce the
operation's `Failed ...: <cause>` text, never an escaping exception (each
`...ToolExecute` is a total function into a text result). -/
theorem tool_errors_rendered :
    (∀ (fs : FileSystem) (remote : RemoteOracle) (c : SourceKitLSPClient)
        (args : PositionArgs),
      mapLookup fs args.file = none →
      (hoverToolExecute fs remote c args).result.text =
        "Failed to get hover information: "
          ++ LSPFailure.message (.fileNotFound args.file)) ∧
    (∀ (fs : FileSystem) (remote : RemoteOracle) (c : SourceKitLSPClient)
        (args : PositionArgs) (content m : String),
      mapLookup fs args.file = some content →
      c.connectionDisposed = false →
      remote.hoverReply (fileUri args.file) (args.line - 1) (args.column - 1) =
        .error (.remoteError m) →
      (hoverToolExecute fs remote c args).result.text =
        "Failed to get hover information: " ++ m) ∧
    (∀ (fs : FileSystem) (remote : RemoteOracle) (c : SourceKitLSPClient)
        (args : PositionArgs) (content : String),
      mapLookup fs args.file = some content →
      c.connectionDisposed = true →
      (hoverToolExecute fs remote c args).result.text =
        "Failed to get hover information: Connection is closed.") ∧
    (∀ (fs : FileSystem) (c : SourceKitLSPClient) (file : String),
      mapLookup fs file = none →
      (diagnosticsToolExecute fs c file).result.text =
        "Failed to get diagnostics: " ++ LSPFailure.message (.fileNotFound file)) := by
  refine ⟨?_, ?_, ?_, ?_⟩
  · intro fs remote c args hfile
    simp [hoverToolExecute, hfile, LSPFailure.message]
  · intro fs remote c args content m hfile hconn hreply
    obtain ⟨c1, sent, hopen, hdisp⟩ :=
      openFile_ok_of_not_disposed c (fileUri args.file) content hconn
    simp [hoverToolExecute, hfile, hopen, SourceKitLSPClient.hover, hdisp, hreply,
      LSPFailure.message]
  · intro fs remote c args content hfile hconn
    cases hl : mapLookup c.openFiles (fileUri args.file) with
    | none =>
      simp [hoverToolExecute, hfile, SourceKitLSPClient.openFile, hl,
        connectionSend, hconn, LSPFailure.message]
    | some existing =>
      by_cases hc : existing.content == content
      · simp [hoverToolExecute, hfile, SourceKitLSPClient.openFile, hl, hc,
          SourceKitLSPClient.hover, hconn, LSPFailure.message]
      · simp [hoverToolExecute, hfile, SourceKitLSPClient.openFile, hl, hc,
          SourceKitLSPClient.updateFile, connectionSend, hconn, LSPFailure.message]
  · intro fs c file hfile
    simp [diagnosticsToolExecute, hfile, LSPFailure.message]

/-- Witness for C7 at concrete inputs: a missing file, a remote error reply,
a disposed connection, and a missing file at the diagnostics tool. -/
theorem tool_errors_rendered_witness :
    (hoverToolExecute emptyFS nullOracle initialClient ⟨"/proj/missing.swift", 1, 1⟩).result.text =
      "Failed to get hover information: File not found: /proj/missing.swift" ∧
    (hoverToolExecute fsA failingOracle initialClient ⟨"/proj/a.swift", 1, 1⟩).result.text =
      "Failed to get hover information: Request failed" ∧
    (hoverToolExecute fsA nullOracle disposedClient ⟨"/proj/a.swift", 1, 1⟩).result.text =
      "Failed to get hover information: Connection is closed." ∧
    (diagnosticsToolExecute emptyFS initialClient "/proj/missing.swift").result.text =
      "Failed to get diagnostics: File not found: /proj/missing.swift" :=
  ⟨tool_errors_rendered.1 emptyFS nullOracle initialClient ⟨"/proj/missing.swift", 1, 1⟩ rfl,
   tool_errors_rendered.2.1 fsA failingOracle initialClient ⟨"/proj/a.swift", 1, 1⟩
     "let x = 1" "Request failed" rfl rfl rfl,
   tool_errors_rendered.2.2.1 fsA nullOracle disposedClient ⟨"/proj/a.swift", 1, 1⟩
     "let x = 1" rfl rfl,
   tool_errors_rendered.2.2.2 emptyFS initialClient "/proj/missing.swift" rfl⟩

/-- Claim C8: the external 1-based line and column are converted to the
internal 0-based position by subtracting exactly 1 from each before the
request is issued, and every rendered position field of a reply is converted
back by adding exactly 1. -/
theorem position_conversion :
    (∀ (fs : FileSystem) (remote : RemoteOracle) (c : SourceKitLSPClient)
        (args : PositionArgs) (content : String),
      mapLookup fs args.file = some content →
      c.connectionDisposed = false →
      (hoverToolExecute fs remote c args).requests =
        [LSPRequest.hoverReq (fileUri args.file) (args.line - 1) (args.column - 1)]) ∧
    (∀ (fs : FileSystem) (remote : RemoteOracle) (c : SourceKitLSPClient)
        (args : ReferencesArgs) (content : String) (locs : List Location),
      mapLookup fs args.file = some content →
      c.connectionDisposed = false →
      remote.referencesReply (fileUri args.file) (args.line - 1) (args.column - 1)
        (args.includeDeclaration.getD true) = .ok (some locs) →
      locs ≠ [] →
      (referencesToolExecute fs remote c args).result.text =
        "Found " ++ toString locs.length ++ " reference"
          ++ (if locs.length == 1 then "" else "s") ++ ":\n"
          ++ String.intercalate "\n" (locs.map (fun l =>
              "- " ++ uriFsPath l.uri ++ ":" ++ toString (l.range.start.line + 1)
                ++ ":" ++ toString (l.range.start.character + 1)))) := by
  constructor
  · intro fs remote c args content hfile hconn
    obtain ⟨c1, sent, hopen, hdisp⟩ :=
      openFile_ok_of_not_disposed c (fileUri args.file) content hconn
    cases hrr : remote.hoverReply (fileUri args.file) (args.line - 1) (args.column - 1) with
    | error e =>
      simp [hoverToolExecute, hfile, hopen, SourceKitLSPClient.hover, hdisp, hrr]
    | ok r =>
      cases r with
      | none => simp [hoverToolExecute, hfile, hopen, SourceKitLSPClient.hover, hdisp, hrr]
      | some h =>
        by_cases hcf : contentsFalsy h.contents
        · simp [hoverToolExecute, hfile, hopen, SourceKitLSPClient.hover, hdisp, hrr, hcf]
        · simp [hoverToolExecute, hfile, hopen, SourceKitLSPClient.hover, hdisp, hrr, hcf]
  · intro fs remote c args content locs hfile hconn hreply hlocs
    obtain ⟨c1, sent, hopen, hdisp⟩ :=
      openFile_ok_of_not_disposed c (fileUri args.file) content hconn
    have hne : locs.isEmpty = false := by
      cases locs with
      | nil => exact absurd rfl hlocs
      | cons a as => rfl
    simp [referencesToolExecute, hfile, hopen, SourceKitLSPClient.references, hdisp,
      hreply, hne, formatLocation, String.append_assoc]

/-- Witness for C8: external line 1, column 5 issues the internal request at
`{line: 0, character: 4}`, and a two-location references reply renders two
entries with each 0-based field incremented by 1. -/
theorem position_conversion_witness :
    (hoverToolExecute fsA nullOracle initialClient ⟨"/proj/a.swift", 1, 5⟩).requests =
      [LSPRequest.hoverReq "file:///proj/a.swift" 0 4] ∧
    (referencesToolExecute fsA refsOracle initialClient
        ⟨"/proj/a.swift", 1, 5, none⟩).result.text =
      "Found 2 references:\n- /proj/a.swift:1:5\n- /proj/b.swift:10:3" := by
  constructor
  · have h := position_conversion.1 fsA nullOracle initialClient
      ⟨"/proj/a.swift", 1, 5⟩ "let x = 1" rfl rfl
    rw [h]
    rfl
  · have h := position_conversion.2 fsA refsOracle initialClient
      ⟨"/proj/a.swift", 1, 5, none⟩ "let x = 1" [loc1, loc2] rfl rfl rfl (by decide)
    rw [h]
    rfl

/-- Claim C9: an absent (`null`) or empty internal result renders as an
explicit "nothing found" message, never as an empty success payload — a null
definition reply and an empty definition array render the no-definition
message; a null hover, a hover without contents, and a hover whose contents
render to the empty string all produce a no-type-information message. -/
theorem empty_result_messages :
    (∀ (fs : FileSystem) (remote : RemoteOracle) (c : SourceKitLSPClient)
        (args : PositionArgs) (content : String),
      mapLookup fs args.file = some content →
      c.connectionDisposed = false →
      remote.definitionReply (fileUri args.file) (args.line - 1) (args.column - 1) = .ok none →
      (definitionToolExecute fs remote c args).result.text =
        "No definition found at this position") ∧
    (∀ (fs : FileSystem) (remote : RemoteOracle) (c : SourceKitLSPClient)
        (args : PositionArgs) (content : String),
      mapLookup fs args.file = some content →
      c.connectionDisposed = false →
      remote.definitionReply (fileUri args.file) (args.line - 1) (args.column - 1) =
        .ok (some (.multiple [])) →
      (definitionToolExecute fs remote c args).result.text =
        "No definition found at this position") ∧
    (∀ (fs : FileSystem) (remote : RemoteOracle) (c : SourceKitLSPClient)
        (args : PositionArgs) (content : String),
      mapLookup fs args.file = some content →
      c.connectionDisposed = false →
      remote.hoverReply (fileUri args.file) (args.line - 1) (args.column - 1) = .ok none →
      (hoverToolExecute fs remote c args).result.text =
        "No type information available at this position") ∧
    (∀ (fs : FileSystem) (remote : RemoteOracle) (c : SourceKitLSPClient)
        (args : PositionArgs) (content : String),
      mapLookup fs args.file = some content →
      c.connectionDisposed = false →
      remote.hoverReply (fileUri args.file) (args.line - 1) (args.column - 1) =
        .ok (some ⟨none⟩) →
      (hoverToolExecute fs remote c args).result.text =
        "No type information available at this position") ∧
    (∀ (fs : FileSystem) (remote : RemoteOracle) (c : SourceKitLSPClient)
        (args : PositionArgs) (content : String),
      mapLookup fs args.file = some content →
      c.connectionDisposed = false →
      remote.hoverReply (fileUri args.file) (args.line - 1) (args.column - 1) =
        .ok (some ⟨some (.fragments [])⟩) →
      (hoverToolExecute fs remote c args).result.text =
        "No type information available") := by
  refine ⟨?_, ?_, ?_, ?_, ?_⟩ <;> intro fs remote c args content hfile hconn hreply <;>
    obtain ⟨c1, sent, hopen, hdisp⟩ :=
      openFile_ok_of_not_disposed c (fileUri args.file) content hconn
  · simp [definitionToolExecute, hfile, hopen, SourceKitLSPClient.definition, hdisp, hreply]
  · simp [definitionToolExecute, hfile, hopen, SourceKitLSPClient.definition, hdisp, hreply]
  · simp [hoverToolExecute, hfile, hopen, SourceKitLSPClient.hover, hdisp, hreply]
  · simp [hoverToolExecute, hfile, hopen, SourceKitLSPClient.hover, hdisp, hreply,
      contentsFalsy]
  · simp [hoverToolExecute, hfile, hopen, SourceKitLSPClient.hover, hdisp, hreply,
      contentsFalsy, renderHoverContents, String.intercalate]

/-- Witness for C9: the null-replying oracle produces the explicit messages. -/
theorem empty_result_messages_witness :
    (definitionToolExecute fsA nullOracle initialClient ⟨"/proj/a.swift", 1, 5⟩).result.text =
      "No definition found at this position" ∧
    (hoverToolExecute fsA nullOracle initialClient ⟨"/proj/a.swift", 1, 5⟩).result.text =
      "No type information available at this position" :=
  ⟨empty_result_messages.1 fsA nullOracle initialClient ⟨"/proj/a.swift", 1, 5⟩
     "let x = 1" rfl rfl rfl,
   empty_result_messages.2.2.1 fsA nullOracle initialClient ⟨"/proj/a.swift", 1, 5⟩
     "let x = 1" rfl rfl rfl⟩

theorem list_all_false_of_mem {α : Type} (p : α → Bool) {l : List α} {x : α}
    (hx : x ∈ l) (hpx : p x = false) : l.all p = false := by
  cases hall : l.all p
  · rfl
  · exfalso
    rw [List.all_eq_true] at hall
    have := hall x hx
    rw [hpx] at this
    cases this

theorem mapLookup_inject (l : List (String × PropSchema)) (k : String) :
    mapLookup (l.map (fun kp => (kp.1, injectProp kp.1 kp.2))) k =
      (mapLookup l k).map (injectProp k) := by
  induction l with
  | nil => rfl
  | cons p rest ih =>
    by_cases hp : p.1 == k
    · have hk : p.1 = k := by simpa using hp
      simp [mapLookup, hp, hk]
    · simp [mapLookup, hp, ih]

theorem checkProp_min_one_fail (p : PropSchema) (n : Int) (hn : n < 1) :
    checkProp { p with minimum := some 1 } (.num n) = false := by
  unfold checkProp
  by_cases h1 : p.type == "string"
  · simp [h1]
  · by_cases h2 : p.type == "number"
    · simp [h1, h2]
      omega
    · by_cases h3 : p.type == "boolean"
      · simp [h1, h2, h3]
      · simp [h1, h2, h3]

theorem checkProp_minLength_one_fail (p : PropSchema) :
    checkProp { p with minLength := some 1 } (.str "") = false := by
  unfold checkProp
  by_cases h1 : p.type == "string"
  · simp [h1]
  · by_cases h2 : p.type == "number"
    · simp [h1, h2]
    · by_cases h3 : p.type == "boolean"
      · simp [h1, h2, h3]
      · simp [h1, h2, h3]

theorem validateJson_fails (td : ToolDefinition) (args : List (String × JsonVal))
    (hbad :
      (∃ k v, (k, v) ∈ args ∧ mapLookup td.inputSchema.properties k = none)
      ∨ (∃ n : Int, ("line", JsonVal.num n) ∈ args ∧ n < 1)
      ∨ (∃ n : Int, ("column", JsonVal.num n) ∈ args ∧ n < 1)
      ∨ ("query", JsonVal.str "") ∈ args) :
    validateJson (buildValidationSchema td.inputSchema) args = false := by
  unfold validateJson
  have hA : args.all (fun kv =>
      match mapLookup (buildValidationSchema td.inputSchema).properties kv.1 with
      | some p => checkProp p kv.2
      | none => (buildValidationSchema td.inputSchema).additionalProperties.getD true)
      = false := by
    rcases hbad with ⟨k, v, hmem, hnone⟩ | ⟨n, hmem, hn⟩ | ⟨n, hmem, hn⟩ | hmem
    · apply list_all_false_of_mem _ hmem
      simp [buildValidationSchema, mapLookup_inject, hnone]
    · apply list_all_false_of_mem _ hmem
      cases horig : mapLookup td.inputSchema.properties "line" with
      | none => simp [buildValidationSchema, mapLookup_inject, horig]
      | some q =>
        have hlook : mapLookup (buildValidationSchema td.inputSchema).properties "line" =
            some (injectProp "line" q) := by
          simp only [buildValidationSchema]
          rw [mapLookup_inject, horig]
          rfl
        rw [hlook]
        exact checkProp_min_one_fail q n hn
    · apply list_all_false_of_mem _ hmem
      cases horig : mapLookup td.inputSchema.properties "column" with
      | none => simp [buildValidationSchema, mapLookup_inject, horig]
      | some q =>
        have hlook : mapLookup (buildValidationSchema td.inputSchema).properties "column" =
            some (injectProp "column" q) := by
          simp only [buildValidationSchema]
          rw [mapLookup_inject, horig]
          rfl
        rw [hlook]
        exact checkProp_min_one_fail q n hn
    · apply list_all_false_of_mem _ hmem
      cases horig : mapLookup td.inputSchema.properties "query" with
      | none => simp [buildValidationSchema, mapLookup_inject, horig]
      | some q =>
        have hlook : mapLookup (buildValidationSchema td.inputSchema).properties "query" =
            some (injectProp "query" q) := by
          simp only [buildValidationSchema]
          rw [mapLookup_inject, horig]
          rfl
        rw [hlook]
        exact checkProp_minLength_one_fail q
  rw [hA]
  rfl

/-- Claim C10: when a tool call's argument object carries a property the tool's
schema does not declare, or a `line` or `column` below 1, or an empty `query`,
the server returns a validation-error text response and does not execute the
tool — the client state is unchanged, no document-sync notification is emitted,
and no request is issued.  The validator is the schema prepared by
`buildValidationSchema`: the deep-cloned public schema with
`additionalProperties := false` and the injected `minimum 1` / `minLength 1`
constraints. -/
theorem validation_gate (fs : FileSystem) (remote : RemoteOracle)
    (c : SourceKitLSPClient) (name : String) (args : List (String × JsonVal))
    (td : ToolDefinition)
    (hfind : TOOL_DEFINITIONS.find? (fun t => t.name == name) = some td)
    (hbad :
      (∃ k v, (k, v) ∈ args ∧ mapLookup td.inputSchema.properties k = none)
      ∨ (∃ n : Int, ("line", JsonVal.num n) ∈ args ∧ n < 1)
      ∨ (∃ n : Int, ("column", JsonVal.num n) ∈ args ∧ n < 1)
      ∨ ("query", JsonVal.str "") ∈ args) :
    handleToolCall fs remote c name (some args) =
      { result := ⟨"Validation error: Invalid arguments"⟩,
        client := c, sent := [], requests := [] } := by
  have hval : validateToolArgs name args = some "Invalid arguments" := by
    unfold validateToolArgs
    rw [hfind]
    simp [validateJson_fails td args hbad]
  simp [handleToolCall, hval]

/-- Witness for C10: a swift-hover call with `line = 0` is rejected without
executing the tool. -/
theorem validation_gate_witness :
    handleToolCall emptyFS nullOracle initialClient "swift-hover"
      (some [("file", .str "/proj/a.swift"), ("line", .num 0), ("column", .num 2)]) =
      { result := ⟨"Validation error: Invalid arguments"⟩,
        client := initialClient, sent := [], requests := [] } :=
  validation_gate emptyFS nullOracle initialClient "swift-hover"
    [("file", .str "/proj/a.swift"), ("line", .num 0), ("column", .num 2)] _
    rfl (Or.inr (Or.inl ⟨0, by decide, by decide⟩))

end SourceKitMCP
